import Mathlib

/-!
Shallow embedding of the npat-efault/modbus package (MODBUS over serial
lines, RTU encoding) and proofs about it.

Bytes are modelled as `Nat` (with explicit `% 256` where Go performs a
`byte(...)` conversion) and 16-bit words as `Nat` (with explicit bounds
where needed).  Go byte slices become `List Nat`.  A Go function that can
panic on an out-of-range slice index is modelled with `Option`, `none`
standing for the runtime panic; plain error returns of fallible functions
are also `Option`/sum results as documented at each definition.
-/

set_option maxRecDepth 100000

namespace Modbus

/-! ## Protocol constants (sizes.go / part_008) -/

def MaxSerADU : Nat := 256

def SerCRCSz : Nat := 2

def ExcFlag : Nat := 128

/-- Modbus function codes (type `FnCode` in the source). -/
def RdInputs : Nat := 0x02
def RdCoils : Nat := 0x01
def WrCoil : Nat := 0x05
def WrCoils : Nat := 0x0f
def RdInputRegs : Nat := 0x04
def RdHoldingRegs : Nat := 0x03
def WrReg : Nat := 0x06
def WrRegs : Nat := 0x10
def MskWrReg : Nat := 0x16
def RdWrRegs : Nat := 0x17
def RdFIFO : Nat := 0x18
def RdFileRec : Nat := 0x14
def WrFileRec : Nat := 0x15
def RdExcStatus : Nat := 0x07
def Diag : Nat := 0x08
def GetComCnt : Nat := 0x0b
def GetComLog : Nat := 0x0c
def SlaveId : Nat := 0x11
def RdDevId : Nat := 0x2b

/-- Slave diagnostic counter indices (counters.go). -/
def SlvCntBusMsg : Nat := 0
def SlvCntErrCRC : Nat := 1
def SlvCntNum : Nat := 8

/-! ## CRC-16/MODBUS

Modelled from the spec: the CRC routine lives in the external dependency
github.com/npat-efault/gohacks/crc16, which is not part of this
repository.  The spec fixes the algorithm: reflected polynomial 0xA001,
init 0xFFFF, no final XOR, data processed one 8-bit byte at a time. -/

/-- One bit-shift round of the reflected CRC-16/MODBUS computation. -/
def crcRound (c : Nat) : Nat :=
  if c % 2 = 1 then (c / 2) ^^^ 0xA001 else c / 2

/-- Iterate `crcRound` n times. -/
def crcRounds : Nat → Nat → Nat
  | 0, c => c
  | n + 1, c => crcRounds n (crcRound c)

/-- Fold one data byte (an 8-bit quantity) into the CRC accumulator. -/
def crcByte (c x : Nat) : Nat := crcRounds 8 (c ^^^ (x % 256))

/-- CRC-16/MODBUS of a byte sequence. -/
def crc16 (bs : List Nat) : Nat := bs.foldl crcByte 0xFFFF

/-! ## Serial ADU accessors (serial.go) -/

/-- SerADU.CRC: the CRC stored in the serial ADU,
`uint16(a[l-2]) | uint16(a[l-1])<<8` (low byte first). -/
def aduCRC (a : List Nat) : Nat :=
  a.getD (a.length - 2) 0 ||| (a.getD (a.length - 1) 0 <<< 8)

/-- SerADU.CheckCRC: recompute the CRC over all bytes but the last two and
compare with the stored CRC. -/
def checkCRC (a : List Nat) : Bool :=
  aduCRC a == crc16 (a.take (a.length - 2))

/-! ## Frame sizers (part_003)

`size` takes the memoized frame size `s` (field `sz`; 0 = not yet
determined) and the received prefix `b`; it returns
`some (remain, ok, s')` mirroring Go's `(remain int, ok bool)` return plus
the updated memo field, or `none` when the Go code would panic with an
out-of-range slice index. -/

/-- resSizer.size: sizer for RESPONSE ADUs. -/
def resSizerSize (s : Nat) (b : List Nat) : Option (Int × Bool × Nat) :=
  if s ≠ 0 then
    some ((s : Int) - b.length, true, s)
  else if b.length < 5 then
    some (5 - (b.length : Int), true, s)
  else
    match b[1]? with
    | none => none
    | some f1 =>
      if f1 &&& ExcFlag ≠ 0 then
        let sz := 3 + SerCRCSz
        some ((sz : Int) - b.length, true, sz)
      else if f1 = RdCoils ∨ f1 = RdInputs ∨ f1 = RdHoldingRegs ∨
          f1 = RdInputRegs ∨ f1 = RdWrRegs ∨ f1 = RdFileRec ∨
          f1 = WrFileRec ∨ f1 = GetComLog ∨ f1 = SlaveId then
        match b[2]? with
        | none => none
        | some x =>
          let sz := x + 3 + SerCRCSz
          some ((sz : Int) - b.length, true, sz)
      else if f1 = WrCoil ∨ f1 = WrReg ∨ f1 = WrCoils ∨ f1 = WrRegs ∨
          f1 = GetComCnt then
        let sz := 6 + SerCRCSz
        some ((sz : Int) - b.length, true, sz)
      else if f1 = MskWrReg then
        let sz := 8 + SerCRCSz
        some ((sz : Int) - b.length, true, sz)
      else if f1 = RdExcStatus then
        let sz := 3 + SerCRCSz
        some ((sz : Int) - b.length, true, sz)
      else if f1 = RdFIFO then
        match b[2]?, b[3]? with
        | some x2, some x3 =>
          let sz := (x2 <<< 8 ||| x3) + 3 + SerCRCSz
          some ((sz : Int) - b.length, true, sz)
        | _, _ => none
      else
        some (0, false, s)

/-- reqSizer.size: sizer for REQUEST ADUs. -/
def reqSizerSize (s : Nat) (b : List Nat) : Option (Int × Bool × Nat) :=
  if s ≠ 0 then
    some ((s : Int) - b.length, true, s)
  else if b.length < 2 then
    some (2 - (b.length : Int), true, s)
  else
    match b[1]? with
    | none => none
    | some f1 =>
      if f1 = RdCoils ∨ f1 = RdInputs ∨ f1 = RdHoldingRegs ∨
          f1 = RdInputRegs ∨ f1 = WrCoil ∨ f1 = WrReg then
        let sz := 6 + SerCRCSz
        some ((sz : Int) - b.length, true, sz)
      else if f1 = RdExcStatus ∨ f1 = GetComCnt ∨ f1 = GetComLog ∨
          f1 = SlaveId then
        let sz := 2 + SerCRCSz
        some ((sz : Int) - b.length, true, sz)
      else if f1 = WrCoils ∨ f1 = WrRegs then
        if b.length < 7 then
          some (7 - (b.length : Int), true, s)
        else
          match b[6]? with
          | none => none
          | some x =>
            let sz := x + 7 + SerCRCSz
            some ((sz : Int) - b.length, true, sz)
      else if f1 = RdFileRec ∨ f1 = WrFileRec then
        if b.length < 3 then
          some (3 - (b.length : Int), true, s)
        else
          match b[2]? with
          | none => none
          | some x =>
            let sz := x + 3 + SerCRCSz
            some ((sz : Int) - b.length, true, sz)
      else if f1 = MskWrReg then
        let sz := 8 + SerCRCSz
        some ((sz : Int) - b.length, true, sz)
      else if f1 = RdWrRegs then
        if b.length < 10 then
          some (10 - (b.length : Int), true, s)
        else
          match b[10]? with
          | none => none
          | some x =>
            let sz := x + 11 + SerCRCSz
            some ((sz : Int) - b.length, true, sz)
      else if f1 = RdFIFO then
        let sz := 4 + SerCRCSz
        some ((sz : Int) - b.length, true, sz)
      else if f1 = RdDevId then
        let sz := 5 + SerCRCSz
        some ((sz : Int) - b.length, true, sz)
      else
        some (0, false, s)

/-! ## Requests and responses (packers.go)

The concrete `ReqXXX`/`ResXXX` structs of packers.go are modelled as one
inductive; each constructor carries the struct's fields.  `uint16` fields
become `Nat` (bounds appear as hypotheses where needed), `[]byte` and
`[]uint16` fields become `List Nat`. -/

inductive ReqRes where
  | resExc (function excode : Nat)
  | reqRdInputs (coils : Bool) (addr num : Nat)
  | resRdInputs (coils : Bool) (bitStat : List Nat)
  | reqRdRegs (holding : Bool) (addr num : Nat)
  | resRdRegs (holding : Bool) (val : List Nat)
  | reqResWrReg (addr val : Nat)
  | reqResWrCoil (addr : Nat) (status : Bool)
  | reqWrCoils (addr num : Nat) (bitStat : List Nat)
  | resWrCoils (addr num : Nat)
  | reqWrRegs (addr : Nat) (val : List Nat)
  | resWrRegs (addr num : Nat)
  deriving DecidableEq, Repr

/-- pU16s: pack 16-bit words big endian, `byte(w>>8), byte(w)` per word,
appended to `b` (the Go range loop becomes structural recursion). -/
def pU16s (b : List Nat) : List Nat → List Nat
  | [] => b
  | w :: ws => pU16s (b ++ [(w >>> 8) % 256, w % 256]) ws

/-- uU16s for a single word at offset `i`: `uint16(b[i])<<8 | uint16(b[i+1])`.
Go would panic if the slice is too short; callers below enforce the length
checks the Go callers perform. -/
def uU16at (b : List Nat) (i : Nat) : Nat :=
  b.getD i 0 <<< 8 ||| b.getD (i + 1) 0

/-- Read `k` consecutive big-endian 16-bit words (the `ResRdRegs.Unpack`
loop), returning the words and the remaining bytes. -/
def readU16s : List Nat → Nat → List Nat × List Nat
  | b, 0 => ([], b)
  | b, k + 1 =>
    let w := uU16at b 0
    let (ws, rest) := readU16s (b.drop 2) k
    (w :: ws, rest)

/-- Pack per packers.go: append the PDU bytes of `rr` to `b`; `none` is the
`errPack` return (in which case Go returns `b` unchanged).  The
`ReqWrCoils`, `ResWrCoils`, `ReqWrRegs` and `ResWrRegs` packers are empty
stubs in the source: they append nothing and succeed. -/
def pack : ReqRes → List Nat → Option (List Nat)
  | .resExc f e, b => some (b ++ [f ||| ExcFlag, e % 256])
  | .reqRdInputs c a n, b =>
    if n < 1 ∨ n > 2000 then none
    else some (pU16s (b ++ [if c then RdCoils else RdInputs]) [a, n])
  | .resRdInputs c bs, b =>
    let n := bs.length
    if n < 1 ∨ n > 250 then none
    else some (b ++ [if c then RdCoils else RdInputs, n % 256] ++ bs)
  | .reqRdRegs h a n, b =>
    if n < 1 ∨ n > 125 then none
    else some (pU16s (b ++ [if h then RdHoldingRegs else RdInputRegs]) [a, n])
  | .resRdRegs h vs, b =>
    let n := vs.length
    if n < 1 ∨ n > 125 then none
    else some (pU16s (b ++ [if h then RdHoldingRegs else RdInputRegs,
      (n * 2) % 256]) vs)
  | .reqResWrReg a v, b => some (pU16s (b ++ [WrReg]) [a, v])
  | .reqResWrCoil a s, b =>
    let v := if s then 0xff00 else 0x0000
    some (pU16s (b ++ [WrCoil]) [a, v])
  | .reqWrCoils _ _ _, b => some b
  | .resWrCoils _ _, b => some b
  | .reqWrRegs _ _, b => some b
  | .resWrRegs _ _, b => some b

/-- Unpack per packers.go.  The Go methods mutate their receiver and
return the advanced byte slice; here the receiver value goes in and the
updated value comes out together with the remaining bytes.  `none` covers
both the `errUnpack` return and the panics Go's unchecked indexing would
raise on inputs shorter than the accessed offsets. -/
def unpack : ReqRes → List Nat → Option (ReqRes × List Nat)
  | .resExc _ _, b =>
    if b.length < 2 then none
    else some (.resExc (b.getD 0 0 &&& (ExcFlag - 1)) (b.getD 1 0), b.drop 2)
  | .reqRdInputs _ _ _, b =>
    if b.length < 5 then none
    else if b.getD 0 0 = RdInputs then
      some (.reqRdInputs false (uU16at b 1) (uU16at b 3), b.drop 5)
    else if b.getD 0 0 = RdCoils then
      some (.reqRdInputs true (uU16at b 1) (uU16at b 3), b.drop 5)
    else none
  | .resRdInputs _ _, b =>
    if b.length < 3 then none
    else
      let n := b.getD 1 0
      if n < 1 ∨ n > 250 then none
      else if b.length < 2 + n then none
      else
        let bs := (b.drop 2).take n
        if b.getD 0 0 = RdInputs then some (.resRdInputs false bs, b.drop (2 + n))
        else if b.getD 0 0 = RdCoils then some (.resRdInputs true bs, b.drop (2 + n))
        else none
  | .reqRdRegs _ _ _, b =>
    if b.length < 5 then none
    else if b.getD 0 0 = RdHoldingRegs then
      some (.reqRdRegs true (uU16at b 1) (uU16at b 3), b.drop 5)
    else if b.getD 0 0 = RdInputRegs then
      some (.reqRdRegs false (uU16at b 1) (uU16at b 3), b.drop 5)
    else none
  | .resRdRegs _ _, b =>
    if b.length < 3 then none
    else
      let n := b.getD 1 0
      if n < 2 ∨ n > 250 ∨ n % 2 ≠ 0 then none
      else
        let b1 := b.drop 2
        if b1.length < n then none
        else
          let (vs, rest) := readU16s b1 (n / 2)
          if b.getD 0 0 = RdHoldingRegs then some (.resRdRegs true vs, rest)
          else if b.getD 0 0 = RdInputRegs then some (.resRdRegs false vs, rest)
          else none
  | .reqResWrReg _ _, b =>
    if b.length < 5 then none
    else if b.getD 0 0 ≠ WrReg then none
    else some (.reqResWrReg (uU16at b 1) (uU16at b 3), b.drop 5)
  | .reqResWrCoil _ _, b =>
    if b.length < 5 then none
    else if b.getD 0 0 ≠ WrCoil then none
    else
      let v := uU16at b 3
      if v = 0xff00 then some (.reqResWrCoil (uU16at b 1) true, b.drop 5)
      else if v = 0x0000 then some (.reqResWrCoil (uU16at b 1) false, b.drop 5)
      else none
  | .reqWrCoils a n bs, b => some (.reqWrCoils a n bs, b)
  | .resWrCoils a n, b => some (.resWrCoils a n, b)
  | .reqWrRegs a vs, b => some (.reqWrRegs a vs, b)
  | .resWrRegs a n, b => some (.resWrRegs a n, b)

/-- NewReq (part_008): the fresh request value for a function code, or
`none` for `errFnUnsup`/`errFnCode`. -/
def newReq (f : Nat) : Option ReqRes :=
  if f = RdInputs then some (.reqRdInputs false 0 0)
  else if f = RdCoils then some (.reqRdInputs true 0 0)
  else if f = WrCoil then some (.reqResWrCoil 0 false)
  else if f = RdInputRegs then some (.reqRdRegs false 0 0)
  else if f = RdHoldingRegs then some (.reqRdRegs true 0 0)
  else if f = WrReg then some (.reqResWrReg 0 0)
  else none

/-- NewRes (part_008): the fresh response value for a function code; a
code with the exception flag set yields a fresh `ResExc`. -/
def newRes (f : Nat) : Option ReqRes :=
  if f &&& ExcFlag ≠ 0 then some (.resExc 0 0)
  else if f = RdInputs then some (.resRdInputs false [])
  else if f = RdCoils then some (.resRdInputs true [])
  else if f = WrCoil then some (.reqResWrCoil 0 false)
  else if f = RdInputRegs then some (.resRdRegs false [])
  else if f = RdHoldingRegs then some (.resRdRegs true [])
  else if f = WrReg then some (.reqResWrReg 0 0)
  else none

/-- The zero-field value NewReq/NewRes would return for the constructor of
`v` (bool discriminator fields kept, data fields zeroed). -/
def freshOf : ReqRes → ReqRes
  | .resExc _ _ => .resExc 0 0
  | .reqRdInputs c _ _ => .reqRdInputs c 0 0
  | .resRdInputs c _ => .resRdInputs c []
  | .reqRdRegs h _ _ => .reqRdRegs h 0 0
  | .resRdRegs h _ => .resRdRegs h []
  | .reqResWrReg _ _ => .reqResWrReg 0 0
  | .reqResWrCoil _ _ => .reqResWrCoil 0 false
  | v => v

/-- Supported values with fields inside the packers' accepted ranges: the
constructors obtainable from NewReq/NewRes, uint16 fields below 2^16,
byte-slice elements below 2^8, counts inside the packers' guards. -/
def validB : ReqRes → Bool
  | .resExc f e => f < 128 && e < 256
  | .reqRdInputs _ a n => a < 65536 && 1 ≤ n && n ≤ 2000
  | .resRdInputs _ bs => 1 ≤ bs.length && bs.length ≤ 250
  | .reqRdRegs _ a n => a < 65536 && 1 ≤ n && n ≤ 125
  | .resRdRegs _ vs =>
    1 ≤ vs.length && vs.length ≤ 125 && vs.all (fun w => w < 65536)
  | .reqResWrReg a v => a < 65536 && v < 65536
  | .reqResWrCoil a _ => a < 65536
  | _ => false

/-! ## SerPack (serial.go) -/

/-- SerPack: append node address, pack the PDU, then append the
CRC computed over everything appended after `b`, low byte first. -/
def serPack (b : List Nat) (node : Nat) (rr : ReqRes) : Option (List Nat) :=
  match pack rr (b ++ [node]) with
  | none => none
  | some b1 =>
    let crc := crc16 (b1.drop b.length)
    some (b1 ++ [crc % 256, (crc >>> 8) % 256])

/-! ## RTU receiver frame assembly (part_003, SerReceiverRTU.receive)

A `Read` on the byte stream is modelled by a script entry
`(chunk, err?)`: the bytes the stream hands back (at most `nrem` of them
fit in the `be[:nrem]` buffer handed to Read, hence the `take`) together
with an optional error returned by the same call.  Deadline bookkeeping
has no observable effect on the frame-assembly logic and is omitted. -/

inductive RdErr where
  | tmo
  | io
  deriving DecidableEq, Repr

inductive RcvOut where
  | ok (adu : List Nat)
  | errFrame
  | errCRC
  | errTmo
  | errIo
  | panic
  | stuck
  deriving DecidableEq, Repr

/-- The receive loop of `SerReceiverRTU.receive`, parametrized by the
sizer (`reqSizerSize` or `resSizerSize`).  `s` is the sizer's memo field,
`fr` the frame assembled so far, `nrem` the sizer's last answer.
`.stuck` is the modelling artifact for an exhausted read script (the Go
loop would block in `Read`); `.panic` propagates a sizer panic. -/
def receiveLoop (szf : Nat → List Nat → Option (Int × Bool × Nat)) :
    Nat → List Nat → Int → List (List Nat × Option RdErr) → RcvOut
  | _, _, _, [] => .stuck
  | s, fr, nrem, (chunk, e) :: rest =>
    let fr1 := fr ++ chunk.take (min chunk.length nrem.toNat)
    match szf s fr1 with
    | none => .panic
    | some (nrem1, ok, s1) =>
      if ¬ok then .errFrame
      else if nrem1 = 0 then
        if checkCRC fr1 then .ok fr1 else .errCRC
      else
        match e with
        | some .tmo => .errTmo
        | some .io => .errIo
        | none => receiveLoop szf s1 fr1 nrem1 rest

/-- SerReceiverRTU.receive: fresh sizer, empty frame, initial `size` call
(whose `ok` result the Go code discards), then the loop. -/
def receiveRTU (szf : Nat → List Nat → Option (Int × Bool × Nat))
    (reads : List (List Nat × Option RdErr)) : RcvOut :=
  match szf 0 [] with
  | none => .panic
  | some (nrem, _, s) => receiveLoop szf s [] nrem reads

/-! ## Serial master (sermaster.go, SerMaster.SndRcv)

The environment supplies, per loop iteration, the outcomes of the three
collaborator calls: `Sync`, `Transmit` and `ReceiveRes`.  Events record
every access to the byte stream: `Sync` reads it (at least one `Read` per
call — one event stands for the batch), `Transmit` writes it,
`ReceiveRes` reads it. -/

inductive MErr where
  | frame
  | crc
  | timeout
  | io
  | sync
  deriving DecidableEq, Repr

inductive RxR where
  | ok
  | frame
  | crc
  | timeout
  | io
  deriving DecidableEq, Repr

structure MTrial where
  sy : Option MErr
  tx : Option MErr
  rx : RxR
  deriving DecidableEq, Repr

inductive Ev where
  | syncRead
  | txWrite
  | rxRead
  deriving DecidableEq, Repr

/-- An event that reads from the byte stream. -/
def isRead : Ev → Bool
  | .syncRead => true
  | .rxRead => true
  | .txWrite => false

inductive Flow where
  | halt (err : Option MErr)
  | retry (err : MErr)
  deriving DecidableEq, Repr

structure StepOut where
  flow : Flow
  synced : Bool
  txn : Nat
  evs : List Ev
  deriving DecidableEq, Repr

/-- Transmit-and-receive part of one SndRcv loop iteration (entered with
the synced flag already established for this iteration). -/
def smStepTx (synced : Bool) (bcast : Bool) (t : MTrial) (evs : List Ev) :
    StepOut :=
  match t.tx with
  | some e => ⟨.halt (some e), false, 1, evs ++ [.txWrite]⟩
  | none =>
    if bcast then ⟨.halt none, synced, 1, evs ++ [.txWrite]⟩
    else
      match t.rx with
      | .ok => ⟨.halt none, synced, 1, evs ++ [.txWrite, .rxRead]⟩
      | .frame => ⟨.retry .frame, false, 1, evs ++ [.txWrite, .rxRead]⟩
      | .crc => ⟨.retry .crc, false, 1, evs ++ [.txWrite, .rxRead]⟩
      | .io => ⟨.halt (some .io), false, 1, evs ++ [.txWrite, .rxRead]⟩
      | .timeout => ⟨.retry .timeout, synced, 1, evs ++ [.txWrite, .rxRead]⟩

/-- One iteration of the SndRcv retry loop: sync to the bus if required,
then transmit/receive. -/
def smStep (synced : Bool) (bcast : Bool) (t : MTrial) : StepOut :=
  if synced then smStepTx true bcast t []
  else
    match t.sy with
    | some e => ⟨.halt (some e), false, 0, [.syncRead]⟩
    | none => smStepTx true bcast t [.syncRead]

structure RunOut where
  err : Option MErr
  synced : Bool
  txn : Nat
  evs : List Ev
  deriving DecidableEq, Repr

/-- The `for try := sm.Retrans + 1; try > 0; try--` loop.  `i` indexes the
environment, `err` is the loop's error variable. -/
def smLoop (env : Nat → MTrial) (bcast : Bool) :
    Nat → Nat → Bool → Option MErr → RunOut
  | _, 0, synced, err => ⟨err, synced, 0, []⟩
  | i, n + 1, synced, _ =>
    let o := smStep synced bcast (env i)
    match o.flow with
    | .halt e => ⟨e, o.synced, o.txn, o.evs⟩
    | .retry e =>
      let r := smLoop env bcast (i + 1) n o.synced (some e)
      ⟨r.err, r.synced, o.txn + r.txn, o.evs ++ r.evs⟩

/-- SerMaster.SndRcv with `Retrans = retrans`, initial synced flag
`synced0`, and `bcast` the test `req.Node() == 0`. -/
def sndRcv (env : Nat → MTrial) (retrans : Nat) (synced0 : Bool)
    (bcast : Bool) : RunOut :=
  smLoop env bcast 0 (retrans + 1) synced0 none

/-! ## Serial slave loop (serial.go, SerSlave.run)

One loop iteration; the environment supplies the outcomes of `Sync`,
`ReceiveReq`, the handler (`nil` response or not), `transmit`, and the
monitoring `ReceiveRes`.  The diagnostic counter array `cnt` is carried
through so that its (non-)modification is part of the model: the run loop
of the source contains no `cnt.Inc` call on any path. -/

inductive SRx where
  | ok (node : Nat)
  | frame
  | crc
  | timeout
  | io
  deriving DecidableEq, Repr

structure STrial where
  sy : Option MErr
  rq : SRx
  handleRes : Bool
  txOk : Bool
  rs : SRx
  deriving DecidableEq, Repr

inductive SFlow where
  | halt (err : Option MErr)
  | next
  deriving DecidableEq, Repr

structure SStepOut where
  flow : SFlow
  synced : Bool
  cnt : List Nat
  deriving DecidableEq, Repr

/-- The "Not ours, receive response" tail of the slave loop body. -/
def slvMonitor (synced : Bool) (cnt : List Nat) (t : STrial) : SStepOut :=
  match t.rs with
  | .io => ⟨.halt (some .io), synced, cnt⟩
  | .frame => ⟨.next, false, cnt⟩
  | .crc => ⟨.next, false, cnt⟩
  | .timeout => ⟨.next, synced, cnt⟩
  | .ok _ => ⟨.next, synced, cnt⟩

/-- One iteration of SerSlave.run's for-loop. -/
def slvStep (nodeId : Nat) (synced : Bool) (cnt : List Nat) (t : STrial) :
    SStepOut :=
  if ¬synced ∧ t.sy.isSome then ⟨.halt t.sy, false, cnt⟩
  else
    match t.rq with
    | .io => ⟨.halt (some .io), true, cnt⟩
    | .frame => ⟨.next, false, cnt⟩
    | .crc => ⟨.next, false, cnt⟩
    | .timeout => ⟨.next, true, cnt⟩
    | .ok node =>
      if node = 0 then ⟨.next, true, cnt⟩
      else if nodeId = 0 ∨ nodeId = node then
        if t.handleRes then
          if t.txOk then ⟨.next, true, cnt⟩ else ⟨.halt (some .io), true, cnt⟩
        else slvMonitor true cnt t
      else slvMonitor true cnt t

/-! ## Diagnostic counters (counters.go)

`Counter` is a Go `int`, modelled as `Int`.  `none` models the panic a
negative index raises in `c.ca[cnt]`; the `int(cnt) >= len(c.ca)` guard
only protects the upper side. -/

/-- counters.Get. -/
def countersGet (ca : List Nat) (cnt : Int) : Option Nat :=
  if (ca.length : Int) ≤ cnt then some 0
  else if 0 ≤ cnt then some (ca.getD cnt.toNat 0)
  else none

/-- counters.Inc. -/
def countersInc (ca : List Nat) (cnt : Int) : Option (List Nat) :=
  if (ca.length : Int) ≤ cnt then some ca
  else if 0 ≤ cnt then some (ca.set cnt.toNat (ca.getD cnt.toNat 0 + 1))
  else none

/-- SerSlave.Counter simply delegates to counters.Get. -/
def serSlaveCounter (ca : List Nat) (cnt : Int) : Option Nat :=
  countersGet ca cnt

/-! ## Helper lemmas on 16-bit byte splitting and the CRC -/

theorem u16_recompose (w : Nat) (h : w < 65536) :
    ((w >>> 8) % 256) <<< 8 ||| w % 256 = w := by
  have e8 : (256 : Nat) = 2 ^ 8 := by norm_num
  have h8 : w >>> 8 < 256 := by
    rw [Nat.shiftRight_eq_div_pow]
    have : (2 : Nat) ^ 8 = 256 := by norm_num
    rw [this]; omega
  rw [Nat.mod_eq_of_lt h8]
  apply Nat.eq_of_testBit_eq
  intro i
  rw [Nat.testBit_lor, Nat.testBit_shiftLeft, e8, Nat.testBit_mod_two_pow]
  rcases lt_or_ge i 8 with hi | hi
  · have h1 : ¬(i ≥ 8) := by omega
    simp [h1, hi]
  · have h1 : ¬(i < 8) := by omega
    have h2 : i ≥ 8 := hi
    simp only [h2, h1, decide_eq_true_eq, Nat.testBit_shiftRight,
      eq_true h2, eq_false h1, Bool.true_and, Bool.false_and, Bool.or_false,
      decide_True, decide_False]
    congr 1
    omega

theorem u16_recompose_lo (w : Nat) (h : w < 65536) :
    w % 256 ||| ((w >>> 8) % 256) <<< 8 = w := by
  rw [Nat.lor_comm]
  exact u16_recompose w h

theorem lor_flag_and_mask (f : Nat) (hf : f < 128) :
    (f ||| 128) &&& 127 = f := by
  apply Nat.eq_of_testBit_eq
  intro i
  have e7 : (127 : Nat) = 2 ^ 7 - 1 := by norm_num
  have e7' : (128 : Nat) = 2 ^ 7 := by norm_num
  rw [Nat.testBit_and, Nat.testBit_lor, e7, Nat.testBit_two_pow_sub_one, e7',
    Nat.testBit_two_pow]
  rcases lt_or_ge i 7 with hi | hi
  · simp [hi, show ¬(7 = i) from by omega]
  · have hfi : f.testBit i = false := by
      apply Nat.testBit_lt_two_pow
      calc f < 2 ^ 7 := by norm_num at e7'; omega
        _ ≤ 2 ^ i := Nat.pow_le_pow_right (by norm_num) hi
    simp [hfi, show ¬(i < 7) from by omega]

theorem lor_flag_testBit (f : Nat) : (f ||| 128).testBit 7 = true := by
  rw [Nat.testBit_lor]
  have e7 : (128 : Nat) = 2 ^ 7 := by norm_num
  rw [e7, Nat.testBit_two_pow]
  simp

theorem crcRound_lt (c : Nat) (h : c < 65536) : crcRound c < 65536 := by
  have e : (65536 : Nat) = 2 ^ 16 := by norm_num
  unfold crcRound
  split
  · rw [e]
    exact Nat.xor_lt_two_pow (by omega) (by norm_num)
  · omega

theorem crcRounds_lt (n c : Nat) (h : c < 65536) : crcRounds n c < 65536 := by
  induction n generalizing c with
  | zero => exact h
  | succ n ih => exact ih _ (crcRound_lt c h)

theorem crcByte_lt (c x : Nat) (h : c < 65536) : crcByte c x < 65536 := by
  apply crcRounds_lt
  have e : (65536 : Nat) = 2 ^ 16 := by norm_num
  rw [e]
  exact Nat.xor_lt_two_pow (by omega) (by
    have : x % 256 < 256 := Nat.mod_lt _ (by norm_num)
    omega)

theorem crc16_foldl_lt (bs : List Nat) (c : Nat) (h : c < 65536) :
    bs.foldl crcByte c < 65536 := by
  induction bs generalizing c with
  | nil => exact h
  | cons x bs ih => exact ih _ (crcByte_lt c x h)

theorem crc16_lt (bs : List Nat) : crc16 bs < 65536 :=
  crc16_foldl_lt bs 0xFFFF (by norm_num)

/-! ## Helper lemmas on list appending in the packers -/

theorem pU16s_append (ws : List Nat) (b1 b2 : List Nat) :
    pU16s (b1 ++ b2) ws = b1 ++ pU16s b2 ws := by
  induction ws generalizing b2 with
  | nil => rfl
  | cons w ws ih =>
    simp only [pU16s, List.append_assoc] at *
    exact ih _

theorem pack_split (rr : ReqRes) (b : List Nat) :
    pack rr b = (pack rr []).map (b ++ ·) := by
  cases rr <;>
    simp only [pack] <;>
    (try split) <;>
    simp [pU16s_append, pU16s]

theorem getD_append_right (X Y : List Nat) (i d : Nat) :
    (X ++ Y).getD (X.length + i) d = Y.getD i d := by
  induction X with
  | nil => simp
  | cons x X ih =>
    have hx : (x :: X).length + i = (X.length + i) + 1 := by
      simp; omega
    rw [hx, List.cons_append, List.getD_cons_succ]
    exact ih

/-! ## C1: request sizer, read/write-regs (0x17) prefix handling -/

/-- Claim C1 (code bug witness): on a 10-byte request prefix whose
function-code byte is 0x17 (read/write regs), `reqSizer.size` passes its
`len(b) < 10` guard and then reads `b[10]`, one past the end of the
prefix: the model returns `none` (the Go code panics with an
index-out-of-range).  The spec instead requires an 11-byte prefix before
reading byte 10. -/
theorem reqSizer_rdwrRegs_oob :
    reqSizerSize 0 [0x01, 0x17, 0, 0, 0, 1, 0, 0, 0, 2] = none := by
  decide

/-! ## C2: response sizer on the 2-byte prefix 03 06 -/

/-- Claim C2 (counterexample): on the 2-byte prefix `03 06` the fresh
response sizer answers `remain = 3` with no total determined (memo still
0); it does not answer `remain = 7` and does not determine a total frame
length of 9. -/
theorem resSizer_two_byte_prefix_not_seven :
    resSizerSize 0 [0x03, 0x06] = some (3, true, 0) ∧
      some ((3 : Int), true, (0 : Nat)) ≠ some ((7 : Int), true, (9 : Nat)) := by
  constructor
  · decide
  · decide

/-- Claim C2 (amended): given the 2-byte prefix `03 06` the response sizer
reports that 3 more bytes are needed to reach its 5-byte decision point,
leaving the total frame length undetermined. -/
theorem resSizer_two_byte_prefix :
    resSizerSize 0 [0x03, 0x06] = some (3, true, 0) := by
  decide

/-! ## C8: exception response framing -/

/-- Claim C8: packing an exception response with function code F and
exception code E appends exactly the two bytes `[F|0x80, E]`; the packed
PDU has length exactly 2 and the high bit of its first byte set. -/
theorem resExc_pack_framing (f e : Nat) (b : List Nat) (he : e < 256) :
    pack (.resExc f e) b = some (b ++ [f ||| ExcFlag, e]) ∧
      ((b ++ [f ||| ExcFlag, e]).drop b.length).length = 2 ∧
      (f ||| ExcFlag).testBit 7 = true := by
  refine ⟨?_, ?_, ?_⟩
  · simp [pack, Nat.mod_eq_of_lt he]
  · simp
  · exact lor_flag_testBit f

/-- Witness for C8 at F = 0x01 (read coils), E = 0x01 (illegal function). -/
theorem resExc_pack_framing_witness :
    pack (.resExc 1 1) [] = some ([] ++ [1 ||| ExcFlag, 1]) ∧
      (([] ++ [1 ||| ExcFlag, 1]).drop (List.length ([] : List Nat))).length = 2 ∧
      ((1 : Nat) ||| ExcFlag).testBit 7 = true :=
  resExc_pack_framing 1 1 [] (by decide)

/-! ## C10: counter access totality -/

/-- Claim C10 (counterexample): `counters.Get` applied to the negative
counter index -1 indexes out of bounds (the model returns `none`,
mirroring the Go runtime panic of `c.ca[cnt]` for negative `cnt`), so
counter access is not total for every `Counter` argument. -/
theorem countersGet_negative_panics :
    countersGet (List.replicate 8 0) (-1) = none ∧
      countersInc (List.replicate 8 0) (-1) = none := by
  constructor
  · decide
  · decide

/-- Claim C10 (amended): for every index at or above the number of
allocated counters, `counters.Get` returns 0 and `counters.Inc` is a
no-op; `SerSlave.Counter` (and Get/Inc generally) never indexes out of
bounds for any non-negative `Counter` argument.  A negative argument,
however, does index out of bounds. -/
theorem counters_total (ca : List Nat) (cnt : Int) :
    ((ca.length : Int) ≤ cnt →
      countersGet ca cnt = some 0 ∧ countersInc ca cnt = some ca) ∧
    (0 ≤ cnt →
      serSlaveCounter ca cnt ≠ none ∧ countersGet ca cnt ≠ none ∧
        countersInc ca cnt ≠ none) := by
  constructor
  · intro h
    constructor
    · simp [countersGet, h]
    · simp [countersInc, h]
  · intro h
    refine ⟨?_, ?_, ?_⟩ <;>
      simp only [serSlaveCounter, countersGet, countersInc] <;>
      split <;> simp [h]

/-- Witness for C10: the allocated slave counter array has 8 slots;
index 9 reads as 0 and is not incremented, and index 1 (the CRC-error
counter) is accessed in bounds. -/
theorem counters_total_witness :
    (countersGet (List.replicate 8 0) 9 = some 0 ∧
      countersInc (List.replicate 8 0) 9 = some (List.replicate 8 0)) ∧
      serSlaveCounter (List.replicate 8 0) 1 ≠ none := by
  refine ⟨(counters_total (List.replicate 8 0) 9).1 (by decide),
    ((counters_total (List.replicate 8 0) 1).2 (by decide)).1⟩

/-! ## C3: CRC of a packed serial ADU -/

theorem checkCRC_append (X : List Nat) :
    checkCRC (X ++ [crc16 X % 256, (crc16 X >>> 8) % 256]) = true := by
  unfold checkCRC aduCRC
  have hlen : (X ++ [crc16 X % 256, (crc16 X >>> 8) % 256]).length =
      X.length + 2 := by simp
  rw [hlen]
  have h2 : X.length + 2 - 2 = X.length := by omega
  have h1 : X.length + 2 - 1 = X.length + 1 := by omega
  rw [h2, h1]
  have g0 : (X ++ [crc16 X % 256, (crc16 X >>> 8) % 256]).getD X.length 0 =
      crc16 X % 256 := by
    have g := getD_append_right X [crc16 X % 256, (crc16 X >>> 8) % 256] 0 0
    simpa using g
  have g1 : (X ++ [crc16 X % 256, (crc16 X >>> 8) % 256]).getD
      (X.length + 1) 0 = (crc16 X >>> 8) % 256 := by
    have g := getD_append_right X [crc16 X % 256, (crc16 X >>> 8) % 256] 1 0
    simpa using g
  rw [g0, g1, List.take_left, u16_recompose_lo _ (crc16_lt X)]
  simp

/-- Claim C3: for every prefix `b`, node address and request/response
value whose Pack succeeds, the serial ADU appended by `SerPack`
(everything after the prefix `b`) satisfies `CheckCRC`: the CRC-16/MODBUS
recomputed over all ADU bytes except the last two equals the last two
bytes interpreted low-byte-first. -/
theorem serPack_checkCRC (b : List Nat) (node : Nat) (rr : ReqRes)
    (a : List Nat) (h : serPack b node rr = some a) :
    checkCRC (a.drop b.length) = true := by
  rcases hp0 : pack rr [] with _ | p
  · rw [serPack, pack_split, hp0] at h
    simp at h
  · have hp : pack rr (b ++ [node]) = some (b ++ ([node] ++ p)) := by
      rw [pack_split, hp0]
      simp
    simp only [serPack, hp] at h
    have ha := Option.some.inj h
    have hd : (b ++ ([node] ++ p)).drop b.length = [node] ++ p :=
      List.drop_left b ([node] ++ p)
    rw [hd] at ha
    rw [← ha, List.append_assoc, List.drop_left]
    exact checkCRC_append ([node] ++ p)

/-- Witness for C3: a packed write-single-coil request for node 1 passes
the CRC check. -/
theorem serPack_checkCRC_witness :
    serPack [] 1 (.reqResWrCoil 172 true) =
      some [1, 5, 0, 172, 255, 0, 76, 27] ∧
    checkCRC ([1, 5, 0, 172, 255, 0, 76, 27].drop
      (List.length ([] : List Nat))) = true := by
  constructor
  · decide
  · exact serPack_checkCRC [] 1 (.reqResWrCoil 172 true)
      [1, 5, 0, 172, 255, 0, 76, 27] (by decide)

/-! ## C4: pack/unpack round trip -/

theorem pU16s_eq (b ws : List Nat) : pU16s b ws = b ++ pU16s [] ws := by
  have h := pU16s_append ws b []
  simpa using h

theorem pU16s_nil_cons (w : Nat) (ws : List Nat) :
    pU16s [] (w :: ws) = [(w >>> 8) % 256, w % 256] ++ pU16s [] ws := by
  show pU16s ([] ++ [(w >>> 8) % 256, w % 256]) ws = _
  rw [List.nil_append, pU16s_eq]

theorem pU16s_nil_length (ws : List Nat) :
    (pU16s [] ws).length = 2 * ws.length := by
  induction ws with
  | nil => rfl
  | cons w ws ih =>
    rw [pU16s_nil_cons]
    simp [ih]
    omega

theorem readU16s_pU16s (ws rest : List Nat) (hb : ∀ w ∈ ws, w < 65536) :
    readU16s (pU16s [] ws ++ rest) ws.length = (ws, rest) := by
  induction ws with
  | nil => simp [pU16s, readU16s]
  | cons w ws ih =>
    rw [pU16s_nil_cons]
    have hx : ([(w >>> 8) % 256, w % 256] ++ pU16s [] ws) ++ rest
        = (w >>> 8) % 256 :: w % 256 :: (pU16s [] ws ++ rest) := by simp
    rw [hx, List.length_cons, readU16s]
    have h0 : uU16at ((w >>> 8) % 256 :: w % 256 :: (pU16s [] ws ++ rest)) 0
        = w := by
      simp only [uU16at, List.getD_cons_zero, List.getD_cons_succ]
      exact u16_recompose w (hb w (by simp))
    have h1 : ((w >>> 8) % 256 :: w % 256 :: (pU16s [] ws ++ rest)).drop 2
        = pU16s [] ws ++ rest := rfl
    rw [h0, h1, ih (fun x hx => hb x (by simp [hx]))]

/-- Claim C4: for every value of a type obtainable from NewReq/NewRes
whose fields lie in the packers' accepted ranges, unpacking the bytes
produced by Pack into the fresh NewReq/NewRes value yields the original
value back and consumes all the packed bytes; the second conjunct records
that the fresh receiver value is indeed obtainable from NewReq or
NewRes. -/
theorem pack_unpack_roundtrip (v : ReqRes) (p : List Nat)
    (hv : validB v = true) (hp : pack v [] = some p) :
    unpack (freshOf v) p = some (v, []) ∧
      ∃ f, newReq f = some (freshOf v) ∨ newRes f = some (freshOf v) := by
  cases v with
  | resExc f e =>
    simp only [validB, Bool.and_eq_true, decide_eq_true_eq] at hv
    obtain ⟨hf, he⟩ := hv
    simp only [pack, List.nil_append, Option.some.injEq] at hp
    subst hp
    refine ⟨?_, ⟨129, Or.inr rfl⟩⟩
    simp [unpack, freshOf, List.getD, ExcFlag, lor_flag_and_mask f hf,
      Nat.mod_eq_of_lt he]
  | reqRdInputs c a n =>
    simp only [validB, Bool.and_eq_true, decide_eq_true_eq] at hv
    obtain ⟨⟨ha, hn1⟩, hn2⟩ := hv
    have hg : ¬(n < 1 ∨ n > 2000) := by omega
    simp only [pack, hg, if_false, List.nil_append, Option.some.injEq] at hp
    subst hp
    cases c with
    | false =>
      refine ⟨?_, ⟨2, Or.inl rfl⟩⟩
      simp [unpack, freshOf, pU16s, uU16at, List.getD, RdInputs, RdCoils,
        u16_recompose a ha, u16_recompose n (by omega)]
    | true =>
      refine ⟨?_, ⟨1, Or.inl rfl⟩⟩
      simp [unpack, freshOf, pU16s, uU16at, List.getD, RdInputs, RdCoils,
        u16_recompose a ha, u16_recompose n (by omega)]
  | resRdInputs c bs =>
    simp only [validB, Bool.and_eq_true, decide_eq_true_eq] at hv
    obtain ⟨hn1, hn2⟩ := hv
    have hg : ¬(bs.length < 1 ∨ bs.length > 250) := by omega
    simp only [pack, hg, if_false, List.nil_append, Option.some.injEq] at hp
    subst hp
    have hm : bs.length % 256 = bs.length := Nat.mod_eq_of_lt (by omega)
    have hne : bs ≠ [] := by
      intro hnil
      rw [hnil] at hn1
      simp at hn1
    cases c with
    | false =>
      refine ⟨?_, ⟨2, Or.inr rfl⟩⟩
      simp [unpack, freshOf, List.getD, RdInputs, RdCoils, hm]
      exact ⟨by omega, ⟨hne, by omega⟩, by omega, by omega⟩
    | true =>
      refine ⟨?_, ⟨1, Or.inr rfl⟩⟩
      simp [unpack, freshOf, List.getD, RdInputs, RdCoils, hm]
      exact ⟨by omega, ⟨hne, by omega⟩, by omega, by omega⟩
  | reqRdRegs h a n =>
    simp only [validB, Bool.and_eq_true, decide_eq_true_eq] at hv
    obtain ⟨⟨ha, hn1⟩, hn2⟩ := hv
    have hg : ¬(n < 1 ∨ n > 125) := by omega
    simp only [pack, hg, if_false, List.nil_append, Option.some.injEq] at hp
    subst hp
    cases h with
    | false =>
      refine ⟨?_, ⟨4, Or.inl rfl⟩⟩
      simp [unpack, freshOf, pU16s, uU16at, List.getD, RdHoldingRegs,
        RdInputRegs, u16_recompose a ha, u16_recompose n (by omega)]
    | true =>
      refine ⟨?_, ⟨3, Or.inl rfl⟩⟩
      simp [unpack, freshOf, pU16s, uU16at, List.getD, RdHoldingRegs,
        RdInputRegs, u16_recompose a ha, u16_recompose n (by omega)]
  | resRdRegs h vs =>
    simp only [validB, Bool.and_eq_true, List.all_eq_true,
      decide_eq_true_eq] at hv
    obtain ⟨⟨hn1, hn2⟩, hall⟩ := hv
    have hg : ¬(vs.length < 1 ∨ vs.length > 125) := by omega
    simp only [pack, hg, if_false, List.nil_append, Option.some.injEq] at hp
    subst hp
    have hm : vs.length * 2 % 256 = vs.length * 2 := Nat.mod_eq_of_lt (by omega)
    have hr : readU16s (pU16s [] vs) vs.length = (vs, []) := by
      have hrt := readU16s_pU16s vs [] hall
      simpa using hrt
    have hWl : (pU16s [] vs).length = 2 * vs.length := pU16s_nil_length vs
    have hne : vs ≠ [] := by
      intro hnil
      rw [hnil] at hn1
      simp at hn1
    cases h with
    | false =>
      refine ⟨?_, ⟨4, Or.inr rfl⟩⟩
      rw [pU16s_eq]
      simp [unpack, freshOf, List.getD, RdHoldingRegs, RdInputRegs, hm, hWl]
      exact ⟨by omega, ⟨hne, by omega⟩, by omega, by rw [hr], by rw [hr]⟩
    | true =>
      refine ⟨?_, ⟨3, Or.inr rfl⟩⟩
      rw [pU16s_eq]
      simp [unpack, freshOf, List.getD, RdHoldingRegs, RdInputRegs, hm, hWl]
      exact ⟨by omega, ⟨hne, by omega⟩, by omega, by rw [hr], by rw [hr]⟩
  | reqResWrReg a w =>
    simp only [validB, Bool.and_eq_true, decide_eq_true_eq] at hv
    obtain ⟨ha, hw⟩ := hv
    simp only [pack, List.nil_append, Option.some.injEq] at hp
    subst hp
    refine ⟨?_, ⟨6, Or.inl rfl⟩⟩
    simp [unpack, freshOf, pU16s, uU16at, List.getD, WrReg,
      u16_recompose a ha, u16_recompose w hw]
  | reqResWrCoil a s =>
    simp only [validB, decide_eq_true_eq] at hv
    simp only [pack, List.nil_append, Option.some.injEq] at hp
    subst hp
    cases s with
    | false =>
      refine ⟨?_, ⟨5, Or.inl rfl⟩⟩
      simp [unpack, freshOf, pU16s, uU16at, List.getD, WrCoil,
        u16_recompose a hv]
    | true =>
      refine ⟨?_, ⟨5, Or.inl rfl⟩⟩
      simp [unpack, freshOf, pU16s, uU16at, List.getD, WrCoil,
        u16_recompose a hv]
  | reqWrCoils a n bs => simp [validB] at hv
  | resWrCoils a n => simp [validB] at hv
  | reqWrRegs a vs => simp [validB] at hv
  | resWrRegs a n => simp [validB] at hv

/-- Witness for C4: round trip of a read-coils request (the test vector of
packers_test.go). -/
theorem pack_unpack_roundtrip_witness :
    unpack (freshOf (.reqRdInputs true 19 19)) [1, 0, 19, 0, 19] =
      some (.reqRdInputs true 19 19, []) ∧
      (∃ f, newReq f = some (freshOf (.reqRdInputs true 19 19)) ∨
        newRes f = some (freshOf (.reqRdInputs true 19 19))) :=
  pack_unpack_roundtrip (.reqRdInputs true 19 19) [1, 0, 19, 0, 19]
    (by decide) (by decide)

/-! ## C5 and C6: master SndRcv retry loop -/

/-- The error value SndRcv's receive classification stores for a retryable
receive outcome (`.ok` and `.io` never reach the retry path; the `.io`
value is a placeholder for them). -/
def rxErr : RxR → MErr
  | .ok => .io
  | .frame => .frame
  | .crc => .crc
  | .timeout => .timeout
  | .io => .io

theorem smStep_txn_le (s bc : Bool) (t : MTrial) : (smStep s bc t).txn ≤ 1 := by
  rcases t with ⟨sy, tx, rx⟩
  cases s <;> cases bc <;> cases sy <;> cases tx <;> cases rx <;>
    simp [smStep, smStepTx]

theorem smLoop_succ_halt (env : Nat → MTrial) (bc : Bool) (i n : Nat)
    (s : Bool) (e0 e : Option MErr)
    (h : (smStep s bc (env i)).flow = .halt e) :
    smLoop env bc i (n + 1) s e0 =
      ⟨e, (smStep s bc (env i)).synced, (smStep s bc (env i)).txn,
        (smStep s bc (env i)).evs⟩ := by
  simp only [smLoop]
  rw [h]

theorem smLoop_succ_retry (env : Nat → MTrial) (bc : Bool) (i n : Nat)
    (s : Bool) (e0 : Option MErr) (e : MErr)
    (h : (smStep s bc (env i)).flow = .retry e) :
    smLoop env bc i (n + 1) s e0 =
      ⟨(smLoop env bc (i + 1) n (smStep s bc (env i)).synced (some e)).err,
        (smLoop env bc (i + 1) n (smStep s bc (env i)).synced (some e)).synced,
        (smStep s bc (env i)).txn +
          (smLoop env bc (i + 1) n (smStep s bc (env i)).synced (some e)).txn,
        (smStep s bc (env i)).evs ++
          (smLoop env bc (i + 1) n (smStep s bc (env i)).synced (some e)).evs⟩ := by
  simp only [smLoop]
  rw [h]

theorem smLoop_txn_le (env : Nat → MTrial) (bc : Bool) :
    ∀ (n i : Nat) (s : Bool) (e : Option MErr),
      (smLoop env bc i n s e).txn ≤ n := by
  intro n
  induction n with
  | zero => intro i s e; simp [smLoop]
  | succ n ih =>
    intro i s e
    cases hf : (smStep s bc (env i)).flow with
    | halt e2 =>
      rw [smLoop_succ_halt env bc i n s e e2 hf]
      have h1 := smStep_txn_le s bc (env i)
      simpa using by omega
    | retry e2 =>
      rw [smLoop_succ_retry env bc i n s e e2 hf]
      have h1 := smStep_txn_le s bc (env i)
      have h2 := ih (i + 1) (smStep s bc (env i)).synced (some e2)
      simp only []
      omega

theorem smStep_retry_flow (s : Bool) (t : MTrial) (hsy : t.sy = none)
    (htx : t.tx = none)
    (hrx : t.rx = .frame ∨ t.rx = .crc ∨ t.rx = .timeout) :
    (smStep s false t).flow = .retry (rxErr t.rx) ∧
      (smStep s false t).txn = 1 := by
  rcases t with ⟨sy, tx, rx⟩
  dsimp only at hsy htx hrx
  subst hsy
  subst htx
  rcases hrx with h | h | h <;> subst h <;> cases s <;>
    simp [smStep, smStepTx, rxErr]

theorem smLoop_all_retry (env : Nat → MTrial)
    (hall : ∀ j, (env j).sy = none ∧ (env j).tx = none ∧
      ((env j).rx = .frame ∨ (env j).rx = .crc ∨ (env j).rx = .timeout)) :
    ∀ (n i : Nat) (s : Bool) (e : Option MErr),
      (smLoop env false i (n + 1) s e).err = some (rxErr (env (i + n)).rx) ∧
        (smLoop env false i (n + 1) s e).txn = n + 1 := by
  intro n
  induction n with
  | zero =>
    intro i s e
    obtain ⟨h1, h2, h3⟩ := hall i
    obtain ⟨hf, ht⟩ := smStep_retry_flow s (env i) h1 h2 h3
    rw [smLoop_succ_retry env false i 0 s e _ hf]
    simp [smLoop, ht]
  | succ n ih =>
    intro i s e
    obtain ⟨h1, h2, h3⟩ := hall i
    obtain ⟨hf, ht⟩ := smStep_retry_flow s (env i) h1 h2 h3
    rw [smLoop_succ_retry env false i (n + 1) s e _ hf]
    obtain ⟨ihe, iht⟩ := ih (i + 1) (smStep s false (env i)).synced
      (some (rxErr (env i).rx))
    have hidx : i + 1 + n = i + (n + 1) := by omega
    rw [hidx] at ihe
    simp only []
    exact ⟨ihe, by omega⟩

/-- Claim C5: in the master's SndRcv, (i) at most Retrans + 1 transmit
attempts are made; (ii) a `FrameError` or `CrcError` receive outcome
clears the synced flag and continues the retry loop; (iii) a `Timeout`
outcome continues the retry loop leaving the synced flag set; (iv) when
every attempt fails with a retryable error, all Retrans + 1 attempts are
transmitted and the last attempt's error is returned. -/
theorem sndRcv_retry_classification :
    (∀ (env : Nat → MTrial) (retrans : Nat) (s0 bc : Bool),
      (sndRcv env retrans s0 bc).txn ≤ retrans + 1) ∧
    (∀ (s : Bool) (t : MTrial), t.sy = none → t.tx = none →
      (t.rx = .frame ∨ t.rx = .crc) →
      (smStep s false t).flow = .retry (rxErr t.rx) ∧
        (smStep s false t).synced = false) ∧
    (∀ t : MTrial, t.sy = none → t.tx = none → t.rx = .timeout →
      (smStep true false t).flow = .retry .timeout ∧
        (smStep true false t).synced = true) ∧
    (∀ (env : Nat → MTrial) (retrans : Nat) (s0 : Bool),
      (∀ j, (env j).sy = none ∧ (env j).tx = none ∧
        ((env j).rx = .frame ∨ (env j).rx = .crc ∨ (env j).rx = .timeout)) →
      (sndRcv env retrans s0 false).err = some (rxErr (env retrans).rx) ∧
        (sndRcv env retrans s0 false).txn = retrans + 1) := by
  refine ⟨?_, ?_, ?_, ?_⟩
  · intro env retrans s0 bc
    exact smLoop_txn_le env bc (retrans + 1) 0 s0 none
  · intro s t hsy htx hrx
    rcases t with ⟨sy, tx, rx⟩
    dsimp only at hsy htx hrx
    subst hsy
    subst htx
    rcases hrx with h | h <;> subst h <;> cases s <;>
      simp [smStep, smStepTx, rxErr]
  · intro t hsy htx hrx
    rcases t with ⟨sy, tx, rx⟩
    dsimp only at hsy htx hrx
    subst hsy
    subst htx
    subst hrx
    simp [smStep, smStepTx, rxErr]
  · intro env retrans s0 hall
    have h := smLoop_all_retry env hall retrans 0 s0 none
    rw [Nat.zero_add] at h
    exact h

/-- Witness for C5 at a concrete environment in which every attempt times
out, with Retrans = 1. -/
theorem sndRcv_retry_classification_witness :
    (sndRcv (fun _ => ⟨none, none, .timeout⟩) 1 true false).txn ≤ 2 ∧
      ((smStep true false ⟨none, none, .frame⟩).flow = .retry (rxErr .frame) ∧
        (smStep true false ⟨none, none, .frame⟩).synced = false) ∧
      ((smStep true false ⟨none, none, .timeout⟩).flow = .retry .timeout ∧
        (smStep true false ⟨none, none, .timeout⟩).synced = true) ∧
      ((sndRcv (fun _ => ⟨none, none, .timeout⟩) 1 true false).err =
          some (rxErr ((fun _ => (⟨none, none, .timeout⟩ : MTrial)) 1).rx) ∧
        (sndRcv (fun _ => ⟨none, none, .timeout⟩) 1 true false).txn = 2) :=
  ⟨sndRcv_retry_classification.1 (fun _ => ⟨none, none, .timeout⟩) 1 true false,
    sndRcv_retry_classification.2.1 true ⟨none, none, .frame⟩ rfl rfl
      (Or.inl rfl),
    sndRcv_retry_classification.2.2.1 ⟨none, none, .timeout⟩ rfl rfl rfl,
    sndRcv_retry_classification.2.2.2 (fun _ => ⟨none, none, .timeout⟩) 1 true
      (fun _ => ⟨rfl, rfl, Or.inr (Or.inr rfl)⟩)⟩

/-- Claim C6 (counterexample): a master that is not yet synced and sends a
broadcast request does read from the byte stream — the pre-transmit
`Sync()` call reads — even though the whole call succeeds without waiting
for a response.  This refutes "never reads from the byte stream during
the whole SndRcv call". -/
theorem sndRcv_broadcast_reads_stream :
    (sndRcv (fun _ => ⟨none, none, .ok⟩) 0 false true).err = none ∧
      ((sndRcv (fun _ => ⟨none, none, .ok⟩) 0 false true).evs.any isRead)
        = true := by
  constructor
  · decide
  · decide

/-- Claim C6 (amended): for every request ADU with node address 0
(broadcast), SndRcv never performs a response-reception read, succeeds
after a single transmission when sync and transmit succeed, and — when
the master is already synced — performs no byte-stream read at all during
the call; the only possible reads are those of pre-transmit
synchronization. -/
theorem sndRcv_broadcast_no_response_read (env : Nat → MTrial)
    (retrans : Nat) (s0 : Bool) :
    (Ev.rxRead ∉ (sndRcv env retrans s0 true).evs) ∧
      (s0 = true →
        (sndRcv env retrans s0 true).evs.all (fun e => !isRead e) = true) ∧
      ((env 0).sy = none → (env 0).tx = none →
        (sndRcv env retrans s0 true).err = none ∧
          (sndRcv env retrans s0 true).txn = 1) := by
  rcases h0 : env 0 with ⟨sy, tx, rx⟩
  unfold sndRcv
  simp only [smLoop]
  rw [h0]
  cases s0 <;> cases sy <;> cases tx <;> cases rx <;>
    simp [smStep, smStepTx, isRead]

/-- Witness for C6 (amended) at an already-synced master with succeeding
sync and transmit. -/
theorem sndRcv_broadcast_no_response_read_witness :
    (Ev.rxRead ∉ (sndRcv (fun _ => ⟨none, none, .ok⟩) 0 true true).evs) ∧
      ((sndRcv (fun _ => ⟨none, none, .ok⟩) 0 true true).evs.all
        (fun e => !isRead e) = true) ∧
      ((sndRcv (fun _ => ⟨none, none, .ok⟩) 0 true true).err = none ∧
        (sndRcv (fun _ => ⟨none, none, .ok⟩) 0 true true).txn = 1) := by
  have h := sndRcv_broadcast_no_response_read (fun _ => ⟨none, none, .ok⟩) 0 true
  exact ⟨h.1, h.2.1 rfl, h.2.2 rfl rfl⟩

/-! ## C7: slave loop on frame/CRC errors -/

/-- Claim C7 (counterexample): when request reception fails with `ErrCRC`
the slave loop marks itself unsynced and continues, but the diagnostic
counter array is unchanged: the CRC-error counter (index `SlvCntErrCRC`)
stays 0 and is not incremented — the run loop of the source calls
`counters.Inc` nowhere. -/
theorem slv_crc_error_counter_unchanged :
    slvStep 5 true (List.replicate 8 0) ⟨none, .crc, false, false, .timeout⟩
        = ⟨.next, false, List.replicate 8 0⟩ ∧
      (slvStep 5 true (List.replicate 8 0)
          ⟨none, .crc, false, false, .timeout⟩).cnt.getD SlvCntErrCRC 0
        = 0 ∧
      ¬((slvStep 5 true (List.replicate 8 0)
          ⟨none, .crc, false, false, .timeout⟩).cnt.getD SlvCntErrCRC 0
        = (List.replicate 8 0).getD SlvCntErrCRC 0 + 1) := by
  refine ⟨by decide, by decide, by decide⟩

/-- Claim C7 (amended): whenever the slave loop's request reception fails
with `ErrFrame` or `ErrCRC`, the slave marks itself unsynced and continues
with the next loop iteration; no diagnostic counter is touched (the
counter array is returned unchanged). -/
theorem slv_frame_crc_unsync (nodeId : Nat) (synced : Bool) (cnt : List Nat)
    (t : STrial) (hsy : t.sy = none) (hrq : t.rq = .frame ∨ t.rq = .crc) :
    slvStep nodeId synced cnt t = ⟨.next, false, cnt⟩ := by
  rcases t with ⟨sy, rq, hr, tx, rs⟩
  dsimp only at hsy hrq
  subst hsy
  rcases hrq with h | h <;> subst h <;> cases synced <;> simp [slvStep]

/-- Witness for C7 (amended) on a frame error with the slave synced. -/
theorem slv_frame_crc_unsync_witness :
    slvStep 5 true (List.replicate 8 0) ⟨none, .frame, false, false, .timeout⟩
      = ⟨.next, false, List.replicate 8 0⟩ :=
  slv_frame_crc_unsync 5 true (List.replicate 8 0)
    ⟨none, .frame, false, false, .timeout⟩ rfl (Or.inl rfl)

/-! ## C9: frame-complete check precedes the read-error check -/

/-- Claim C9: in the RTU receiver's frame-assembly loop a read that
returns the final frame bytes together with an error has the error
ignored — the loop proceeds to the CRC check and returns the completed
ADU (or `ErrCRC`); a read error is surfaced to the caller only when the
sizer says the frame is still incomplete. -/
theorem receive_complete_precedes_error
    (szf : Nat → List Nat → Option (Int × Bool × Nat)) (s : Nat)
    (fr : List Nat) (nrem : Int) (chunk : List Nat) (e : RdErr)
    (rest : List (List Nat × Option RdErr)) :
    (∀ s1, szf s (fr ++ chunk.take (min chunk.length nrem.toNat))
        = some (0, true, s1) →
      receiveLoop szf s fr nrem ((chunk, some e) :: rest) =
        (if checkCRC (fr ++ chunk.take (min chunk.length nrem.toNat)) then
          .ok (fr ++ chunk.take (min chunk.length nrem.toNat))
        else .errCRC)) ∧
    (∀ nrem1 s1, szf s (fr ++ chunk.take (min chunk.length nrem.toNat))
        = some (nrem1, true, s1) → nrem1 ≠ 0 →
      receiveLoop szf s fr nrem ((chunk, some e) :: rest) =
        (match e with | .tmo => .errTmo | .io => .errIo)) := by
  constructor
  · intro s1 h
    simp only [receiveLoop]
    rw [h]
    simp
  · intro nrem1 s1 h hne
    simp only [receiveLoop]
    rw [h]
    simp [hne]
    cases e <;> rfl

/-- Witness for C9: an in-progress read-coils request frame whose last
read returns the final two (CRC) bytes together with a timeout error —
the timeout is ignored and the CRC-valid ADU is returned. -/
theorem receive_complete_precedes_error_witness :
    receiveLoop reqSizerSize 8 [1, 1, 0, 19, 0, 19] 2 [([140, 2], some .tmo)]
      = .ok [1, 1, 0, 19, 0, 19, 140, 2] := by
  have h := (receive_complete_precedes_error reqSizerSize 8
    [1, 1, 0, 19, 0, 19] 2 [140, 2] .tmo []).1 8 (by decide)
  rw [h]
  decide

end Modbus
